import Mathlib

set_option maxHeartbeats 1000000
set_option maxRecDepth 100000
set_option allowUnsafeReducibility true

-- Batteries marks the `Rat` field operations `@[irreducible]`; reopening them
-- lets `decide` evaluate the model on the concrete scenario worlds below.
-- Kernel certification of those proofs is unaffected by reducibility hints.
attribute [semireducible] Rat.add Rat.sub Rat.mul Rat.inv

/-
Shallow embedding of the snake.io simulation core.

Sources embedded here:
  * src/types.ts                    -- constants and entity data model
  * src/unnamed/part_000            -- utils/geometry.ts: pure geometry helpers
  * src/components/GameCanvas.tsx   -- the per-frame `update` tick, `createSnake`,
                                       `createFood`, `killSnake`, and the respawn callback

Modelling conventions:
  * JavaScript numbers are modelled as `ℚ`.  Every numeric operation the tick
    performs is exact rational arithmetic (+, -, *, /, comparison, `Math.floor`,
    `Math.abs`, `Math.min`, `Math.sign`), except the transcendental platform
    functions `Math.cos`, `Math.sin`, `Math.atan2` and the constant `Math.PI`,
    which are not functions of this repository: they enter the model as the
    parameters `cosF`, `sinF`, `atan2F` and `pi` of an `Env`, so every theorem
    below holds for an arbitrary interpretation of them.
  * `getDistance` computes `Math.sqrt`.  The tick only ever uses distances in
    comparisons `getDistance p q < r` with `0 ≤ r`; since `sqrt` is monotone,
    that comparison is equivalent to `distSq p q < r ^ 2`, which is how the
    predicate `distLt` below renders it, keeping the model inside `ℚ`.
  * Calls of `Math.random()` are modelled as explicit inputs: every random
    draw the tick makes is a field of a `TickRand` / `BotRand` / `MoveRand` /
    `EatRand` / `FoodRand` record, so the tick is a pure function of the world,
    the input sample and the random sample.
  * The mutable refs (`playerRef`, `botsRef`, `foodRef`, `particlesRef`,
    `cameraRef`, `scoreRef`) are gathered into a `World` record; the callbacks
    `onGameOver`, and the scheduled bot respawns, are modelled as the event
    lists `gameOvers` and `pendingRespawns` that the tick appends to.
  * Inside the tick, `allSnakes = [player, ...bots]` aliases the player and the
    bot objects; the model therefore runs stages 3-5 over a single snake list
    whose index 0 is the player (the `snake === player` test becomes `k = 0`)
    and writes the head and tail of that list back into the world at the end.
-/

/-- Arena side length; `WORLD_SIZE` in src/types.ts. -/
def WORLD_SIZE : ℚ := 4000

/-- Initial number of body segments; `INITIAL_LENGTH` in src/types.ts. -/
def INITIAL_LENGTH : ℕ := 10

/-- Cruising speed; `BASE_SPEED` in src/types.ts. -/
def BASE_SPEED : ℚ := 5

/-- Boosting speed; `BOOST_SPEED` in src/types.ts. -/
def BOOST_SPEED : ℚ := 10

/-- Maximal heading change per tick; `TURN_SPEED = 0.12` in src/types.ts. -/
def TURN_SPEED : ℚ := 12 / 100

/-- 2D point, `Point` in src/types.ts. -/
structure Point where
  x : ℚ
  y : ℚ
deriving DecidableEq, Inhabited

/-- Consumable orb, `Food` in src/types.ts. -/
structure Food where
  id : String
  x : ℚ
  y : ℚ
  value : ℚ
  color : String
  radius : ℚ
deriving DecidableEq, Inhabited

/-- Creature, `Snake` in src/types.ts.  `length` is the real-valued target
length; `body` holds the segments, head first. -/
structure Snake where
  id : String
  name : String
  body : List Point
  angle : ℚ
  length : ℚ
  color : String
  isBoosting : Bool
  score : ℚ
  isDead : Bool
  isBot : Bool
  skinIndex : ℕ
deriving DecidableEq, Inhabited

/-- Cosmetic particle, `Particle` in src/types.ts. -/
structure Particle where
  id : String
  x : ℚ
  y : ℚ
  vx : ℚ
  vy : ℚ
  life : ℚ
  color : String
deriving DecidableEq, Inhabited

/-- Platform functions used by the tick that are not part of the repository:
`Math.cos`, `Math.sin`, `Math.atan2` and `Math.PI`.  They are parameters of
the whole model. -/
structure Env where
  cosF : ℚ → ℚ
  sinF : ℚ → ℚ
  atan2F : ℚ → ℚ → ℚ
  pi : ℚ

/-- Squared euclidean distance.  `getDistance` in geometry.ts is
`sqrt (distSq)`; see the header comment for why the model works with the
square. -/
def distSq (p1 p2 : Point) : ℚ :=
  (p2.x - p1.x) ^ 2 + (p2.y - p1.y) ^ 2

/-- Renders the source comparison `getDistance p1 p2 < r` (for `0 ≤ r`)
without leaving `ℚ`: `sqrt d < r ↔ d < r ^ 2`. -/
def distLt (p1 p2 : Point) (r : ℚ) : Bool :=
  distSq p1 p2 < r ^ 2

/-- `movePoint` in geometry.ts: translate `p` by `dist` in direction `angle`. -/
def movePoint (E : Env) (p : Point) (angle dist : ℚ) : Point :=
  ⟨p.x + E.cosF angle * dist, p.y + E.sinF angle * dist⟩

/-- `checkCircleCollision` in geometry.ts: strict overlap test
`getDistance p1 p2 < r1 + r2`. -/
def checkCircleCollision (p1 : Point) (r1 : ℚ) (p2 : Point) (r2 : ℚ) : Bool :=
  distLt p1 p2 (r1 + r2)

/-- The `lerp` helper defined inside GameCanvas.tsx: `a + (b - a) * t`. -/
def lerp (a b t : ℚ) : ℚ :=
  a + (b - a) * t

/-- Rounding toward zero, the behaviour of the implicit truncation in the
JavaScript remainder operator. -/
def truncQ (x : ℚ) : ℤ :=
  if x < 0 then ⌈x⌉ else ⌊x⌋

/-- The JavaScript `%` operator on numbers: remainder with the sign of the
dividend, `a % b = a - b * trunc (a / b)`. -/
def jsMod (a b : ℚ) : ℚ :=
  a - b * truncQ (a / b)

/-- `getShortestAngleDiff` in geometry.ts, with `Math.PI` as the parameter
`p`:  `diff = (to - from + pi) % (2π) - π; return diff < -π ? diff + 2π :
diff`. -/
def getShortestAngleDiff (p frm tgt : ℚ) : ℚ :=
  let diff := jsMod (tgt - frm + p) (2 * p) - p
  if diff < -p then diff + 2 * p else diff

/-- `Math.sign` on numbers: `-1`, `0` or `1`. -/
def signQ (x : ℚ) : ℚ :=
  if x < 0 then -1 else if 0 < x then 1 else 0

/-- One sample of the random draws `createFood` makes: the id string, the two
`Math.random()` position draws, the color string, and the radius draw. -/
structure FoodRand where
  id : String
  rx : ℚ
  ry : ℚ
  color : String
  radiusRand : ℚ
deriving DecidableEq, Inhabited

/-- `createFood(x?, y?, value = 10)` in GameCanvas.tsx.  Position defaults to a
random point of the arena; the radius is 8 for values above 20 and otherwise
`4 + Math.random() * 2`. -/
def createFood (r : FoodRand) (ox oy : Option ℚ) (value : ℚ) : Food :=
  { id := r.id
    x := ox.getD (r.rx * WORLD_SIZE - WORLD_SIZE / 2)
    y := oy.getD (r.ry * WORLD_SIZE - WORLD_SIZE / 2)
    value := value
    color := r.color
    radius := if value > 20 then 8 else 4 + r.radiusRand * 2 }

/-- `createSnake` in GameCanvas.tsx: body of `INITIAL_LENGTH` segments spaced
5 apart behind `(x, y)`; `angle` stands for the draw `Math.random() * 2π` and
`skin` for `Math.floor(Math.random() * SNAKE_COLORS.length)`. -/
def createSnake (id name : String) (x y : ℚ) (color : String) (isBot : Bool)
    (angle : ℚ) (skin : ℕ) : Snake :=
  { id := id
    name := name
    body := (List.range INITIAL_LENGTH).map (fun i => ⟨x - i * 5, y⟩)
    angle := angle
    length := (INITIAL_LENGTH : ℚ)
    color := color
    isBoosting := false
    score := 0
    isDead := false
    isBot := isBot
    skinIndex := skin }

/-- The parts of the world a tick threads through stages 3-5 besides the snake
list itself: the food array, the displayed score, and the two event lists. -/
structure TickAcc where
  food : List Food
  scoreRef : ℤ
  gameOvers : List ℤ
  pending : List Snake
deriving DecidableEq, Inhabited

/-- Snake list (index 0 = player) plus the threaded state, i.e. the data the
collision stage of the tick operates on. -/
structure TickState where
  snakes : List Snake
  acc : TickAcc
deriving DecidableEq, Inhabited

/-- The carcass trail `killSnake` creates: one value-20 consumable at every
third body segment (`if (i % 3 === 0)`). -/
def carcass (fr : ℕ → FoodRand) (s : Snake) : List Food :=
  s.body.enum.filterMap fun ia =>
    if ia.1 % 3 = 0 then some (createFood (fr ia.1) (some ia.2.x) (some ia.2.y) 20) else none

/-- `killSnake` in GameCanvas.tsx, acting on one snake object plus the
threaded state: mark dead, append the carcass consumables, then either
schedule the bot respawn (`setTimeout`, modelled by the `pending` list) or
push the session-end event with the currently displayed score. -/
def killSnakeLocal (fr : ℕ → FoodRand) (s : Snake) (acc : TickAcc) : Snake × TickAcc :=
  let s' := { s with isDead := true }
  let acc1 := { acc with food := acc.food ++ carcass fr s }
  if s.isBot then (s', { acc1 with pending := acc1.pending ++ [s'] })
  else (s', { acc1 with gameOvers := acc1.gameOvers ++ [acc.scoreRef] })

/-- `killSnake` applied through the `allSnakes` array at index `a` (the form
stage 5 uses: the killed snake is an element of the iterated list). -/
def killSnakeAt (fr : ℕ → FoodRand) (st : TickState) (a : ℕ) : TickState :=
  match st.snakes[a]? with
  | none => st
  | some s =>
    let r := killSnakeLocal fr s st.acc
    ⟨st.snakes.set a r.1, r.2⟩

/-- The respawn callback `setTimeout` schedules in `killSnake`: look the dead
snake up in the bots array and replace it with a fresh bot with the same id,
name and color.  `rx`, `ry`, `ang`, `skin` stand for the random draws of the
callback. -/
def respawnCallback (rx ry ang : ℚ) (skin : ℕ) (bots : List Snake) (s : Snake) :
    List Snake :=
  if s ∈ bots then
    bots.set (bots.indexOf s)
      (createSnake s.id s.name (rx * WORLD_SIZE - WORLD_SIZE / 2)
        (ry * WORLD_SIZE - WORLD_SIZE / 2) s.color true ang skin)
  else bots

/-- One sample of the random draws the bot-AI stage makes for one bot. -/
structure BotRand where
  jitterCoin : Bool
  jitterU : ℚ
  boostStartCoin : Bool
  boostStopCoin : Bool
deriving DecidableEq, Inhabited

/-- Stage 2 of the tick for one bot: random jitter, forced turn-back near the
borders, stochastic boost start/stop gated on `length > 20`. -/
def botAI (E : Env) (r : BotRand) (bot : Snake) : Snake :=
  if bot.isDead then bot
  else
    let a1 := if r.jitterCoin then bot.angle + (r.jitterU - 1/2) * (3/2) else bot.angle
    let h := bot.body.headI
    let a2 := if |h.x| > WORLD_SIZE / 2 - 200 then (if h.x > 0 then E.pi else 0) else a1
    let a3 := if |h.y| > WORLD_SIZE / 2 - 200 then (if h.y > 0 then -E.pi / 2 else E.pi / 2) else a2
    let b1 := decide (bot.length > 20) && r.boostStartCoin
    let b2 := if b1 && r.boostStopCoin then false else b1
    { bot with angle := a3, isBoosting := b2 }

/-- Stage 2 over the bots array, `i` counting the bot index for the random
sample. -/
def botsAI (E : Env) (br : ℕ → BotRand) : ℕ → List Snake → List Snake
  | _, [] => []
  | i, b :: bs => botAI E (br i) b :: botsAI E br (i + 1) bs

/-- Pointer input and viewport center, the data stage 1 reads. -/
structure Input where
  mouseX : ℚ
  mouseY : ℚ
  centerX : ℚ
  centerY : ℚ
  mouseDown : Bool
deriving DecidableEq, Inhabited

/-- The desired heading stage 1 computes:
`getAngle({centerX, centerY}, {mouseX, mouseY}) = atan2(my - cy, mx - cx)`. -/
def targetAngleOf (E : Env) (inp : Input) : ℚ :=
  E.atan2F (inp.mouseY - inp.centerY) (inp.mouseX - inp.centerX)

/-- Stage 1 of the tick: bounded turn toward the pointer
(`angle += Math.sign(diff) * Math.min(|diff|, TURN_SPEED)`) and boost input
gated on `length > 15`. -/
def steerPlayer (E : Env) (inp : Input) (s : Snake) : Snake :=
  let diff := getShortestAngleDiff E.pi s.angle (targetAngleOf E inp)
  { s with
    angle := s.angle + signQ diff * min |diff| TURN_SPEED
    isBoosting := inp.mouseDown && decide (s.length > 15) }

/-- Effective speed of a snake for the motion stage. -/
def speedOf (s : Snake) : ℚ :=
  if s.isBoosting then BOOST_SPEED else BASE_SPEED

/-- The boundary test of the motion stage:
`Math.abs(h.x) > WORLD_SIZE/2 || Math.abs(h.y) > WORLD_SIZE/2`. -/
def outB (p : Point) : Bool :=
  decide (|p.x| > WORLD_SIZE / 2) || decide (|p.y| > WORLD_SIZE / 2)

/-- The `while (snake.body.length > Math.floor(snake.length)) snake.body.pop()`
loop: truncate the body from the tail down to `⌊len⌋` segments.  (For
`⌊len⌋ < 0` the source loop would not terminate; the model returns `[]`,
and every theorem below that touches this case assumes `0 ≤ len`.) -/
def truncateBody (body : List Point) (len : ℚ) : List Point :=
  if (body.length : ℤ) ≤ ⌊len⌋ then body else body.take ⌊len⌋.toNat

/-- One sample of the random draws the motion stage makes for one snake:
the boost-shedding coin, the two tail offsets, and the dropped orb's data. -/
structure MoveRand where
  dropCoin : Bool
  offXU : ℚ
  offYU : ℚ
  dropFoodRand : FoodRand
deriving DecidableEq, Inhabited

/-- Stage 3 of the tick for one snake: integrate the head, kill at the arena
boundary, otherwise prepend the head, shed length (and maybe an orb) while
boosting above the initial length, then truncate to `⌊length⌋`. -/
def moveOne (E : Env) (r : MoveRand) (fr : ℕ → FoodRand) (s : Snake) (acc : TickAcc) :
    Snake × TickAcc :=
  if s.isDead then (s, acc)
  else
    let newHead := movePoint E s.body.headI s.angle (speedOf s)
    if outB newHead then killSnakeLocal fr s acc
    else
      let body1 := newHead :: s.body
      let boost := s.isBoosting && decide (s.length > (INITIAL_LENGTH : ℚ))
      let len1 := if boost then s.length - 1/10 else s.length
      let food1 :=
        if boost && r.dropCoin then
          let tl := body1.getLastD default
          acc.food ++
            [createFood r.dropFoodRand (some (tl.x + (r.offXU - 1/2) * 20))
              (some (tl.y + (r.offYU - 1/2) * 20)) 5]
        else acc.food
      ({ s with body := truncateBody body1 len1, length := len1 },
       { acc with food := food1 })

/-- The snake part of `moveOne`, which does not depend on the threaded state. -/
def moveSnakePure (E : Env) (s : Snake) : Snake :=
  if s.isDead then s
  else
    let newHead := movePoint E s.body.headI s.angle (speedOf s)
    if outB newHead then { s with isDead := true }
    else
      let body1 := newHead :: s.body
      let boost := s.isBoosting && decide (s.length > (INITIAL_LENGTH : ℚ))
      let len1 := if boost then s.length - 1/10 else s.length
      { s with body := truncateBody body1 len1, length := len1 }

/-- One sample of the random draws the consumption stage makes for one snake:
the replenish coin and the replenished orb's data. -/
structure EatRand where
  respawnCoin : Bool
  fr : FoodRand
deriving DecidableEq, Inhabited

/-- Position of a consumable as a `Point` (food is passed directly to
`checkCircleCollision`, which reads its `x`/`y`). -/
def foodPos (f : Food) : Point :=
  ⟨f.x, f.y⟩

/-- The head-versus-food overlap test of the consumption stage, with the
growth-scaled pickup radius `15 + Math.min(10, snake.length / 50)`. -/
def eatsB (s : Snake) (f : Food) : Bool :=
  checkCircleCollision s.body.headI (15 + min 10 (s.length / 50)) (foodPos f) f.radius

/-- The downward `for`-loop with `splice` of the consumption stage, as the
pair (remaining food, consumed food); each element is examined exactly once
against the fixed head/radius, so the loop partitions the array. -/
def eatFoodList (c : Food → Bool) : List Food → List Food × List Food
  | [] => ([], [])
  | f :: rest =>
    let r := eatFoodList c rest
    if c f then (r.1, f :: r.2) else (f :: r.1, r.2)

/-- Stage 4 of the tick for one snake: eat every overlapped orb (adding
`value / 10` to the target length and `value` to the score, updating the
displayed score when the snake is the player), then maybe replenish one orb
while the food count is below 500. -/
def eatOne (isPlayer : Bool) (r : EatRand) (s : Snake) (acc : TickAcc) : Snake × TickAcc :=
  if s.isDead then (s, acc)
  else
    let er := eatFoodList (eatsB s) acc.food
    let v := (er.2.map Food.value).sum
    let s' := { s with length := s.length + v / 10, score := s.score + v }
    let sc := if isPlayer && !er.2.isEmpty then ⌊s'.score⌋ else acc.scoreRef
    let food2 :=
      if decide (er.1.length < 500) && r.respawnCoin then
        er.1 ++ [createFood r.fr none none 10]
      else er.1
    (s', { acc with food := food2, scoreRef := sc })

/-- All the random draws of one tick, indexed by snake position in
`allSnakes` (and, for kill events, by the indices involved). -/
structure TickRand where
  botRand : ℕ → BotRand
  moveRand : ℕ → MoveRand
  kill3Food : ℕ → ℕ → FoodRand
  eatRand : ℕ → EatRand
  kill5Food : ℕ → ℕ → ℕ → FoodRand
  lbCoin : Bool

/-- Stage 3 over the `allSnakes` array (`k` = index into it). -/
def stage3Go (E : Env) (R : TickRand) : ℕ → List Snake → TickAcc → List Snake × TickAcc
  | _, [], acc => ([], acc)
  | k, s :: rest, acc =>
    let r1 := moveOne E (R.moveRand k) (R.kill3Food k) s acc
    let r2 := stage3Go E R (k + 1) rest r1.2
    (r1.1 :: r2.1, r2.2)

/-- Stage 4 over the `allSnakes` array (`k = 0` is the player: the source
compares `snake === player`). -/
def stage4Go (R : TickRand) : ℕ → List Snake → TickAcc → List Snake × TickAcc
  | _, [], acc => ([], acc)
  | k, s :: rest, acc =>
    let r1 := eatOne (k == 0) (R.eatRand k) s acc
    let r2 := stage4Go R (k + 1) rest r1.2
    (r1.1 :: r2.1, r2.2)

/-- The inner segment scan of stage 5: head of snake `a` against every other
segment of snake `b` starting at `start` (`for (i = start; i < len; i += 2)`),
fatal when some sampled segment is closer than 20. -/
def segmentHit (headA : Point) (body : List Point) (start : ℕ) : Bool :=
  (body.drop start).enum.any fun js => js.1 % 2 == 0 && distLt headA js.2 20

/-- The body of the inner `forEach` of stage 5: skip dead snakes, skip the
first 10 segments against oneself, and on a hit kill snake `a`.  The source's
`return` after `killSnake(snakeA)` only leaves this inner callback, so the
outer loop over `b` continues. -/
def stage5Inner (R : TickRand) (a : ℕ) (headA : Point) (st : TickState) (b : ℕ) :
    TickState :=
  match st.snakes[b]? with
  | none => st
  | some sB =>
    if sB.isDead then st
    else
      let start := if a == b then 10 else 0
      if segmentHit headA sB.body start then killSnakeAt (R.kill5Food a b) st a else st

/-- The body of the outer `forEach` of stage 5: snake `a`'s liveness and head
are read once, then `a` is tested against every snake `b` in order. -/
def stage5Outer (R : TickRand) (st : TickState) (a : ℕ) : TickState :=
  match st.snakes[a]? with
  | none => st
  | some sA =>
    if sA.isDead then st
    else (List.range st.snakes.length).foldl (stage5Inner R a sA.body.headI) st

/-- Stage 5 of the tick: the nested snake-versus-snake sweep. -/
def stage5 (R : TickRand) (st : TickState) : TickState :=
  (List.range st.snakes.length).foldl (stage5Outer R) st

/-- Stage 7 of the tick, `particlesRef.current.forEach((p, i) => ...)` with an
in-loop `splice`: integrate, decay, and remove expired particles, reproducing
the index skip the concurrent removal causes in the source. -/
def particlesGo : ℕ → ℕ → List Particle → List Particle
  | 0, _, ps => ps
  | fuel + 1, k, ps =>
    match ps[k]? with
    | none => ps
    | some p =>
      let p' := { p with x := p.x + p.vx, y := p.y + p.vy, life := p.life - 1/50 }
      if p'.life ≤ 0 then particlesGo fuel (k + 1) (ps.eraseIdx k)
      else particlesGo fuel (k + 1) (ps.set k p')

/-- Stage 7 entry point. -/
def particlesStep (ps : List Particle) : List Particle :=
  particlesGo ps.length 0 ps

/-- Stable insert for the leaderboard sort: the comparator
`(a, b) => b.score - a.score` puts `x` before the first element with a
strictly smaller score. -/
def insertDesc (x : Snake) : List Snake → List Snake
  | [] => [x]
  | y :: ys => if y.score < x.score then x :: y :: ys else y :: insertDesc x ys

/-- The leaderboard sort: stable, by descending score. -/
def sortDesc (l : List Snake) : List Snake :=
  l.foldr insertDesc []

/-- Stage 9 payload: top five living snakes as (name, floored score). -/
def leadersOf (sl : List Snake) : List (String × ℤ) :=
  ((sortDesc (sl.filter fun s => !s.isDead)).take 5).map fun s => (s.name, ⌊s.score⌋)

/-- The whole mutable state of GameCanvas.tsx: the refs plus the outgoing
events (`onGameOver` pushes, scheduled respawns, leaderboard pushes). -/
structure World where
  player : Option Snake
  bots : List Snake
  food : List Food
  particles : List Particle
  camera : Point
  scoreRef : ℤ
  gameOvers : List ℤ
  pendingRespawns : List Snake
  lbPushes : List (List (String × ℤ))
deriving DecidableEq, Inhabited

/-- The `update()` function of GameCanvas.tsx, one full tick: early return
when there is no live player, then stages 1-9 in source order. -/
def update (E : Env) (inp : Input) (R : TickRand) (w : World) : World :=
  match w.player with
  | none => w
  | some p0 =>
    if p0.isDead then w
    else
      let sn0 := steerPlayer E inp p0 :: botsAI E R.botRand 0 w.bots
      let acc0 : TickAcc := ⟨w.food, w.scoreRef, w.gameOvers, w.pendingRespawns⟩
      let r3 := stage3Go E R 0 sn0 acc0
      let r4 := stage4Go R 0 r3.1 r3.2
      let st5 := stage5 R ⟨r4.1, r4.2⟩
      let pEnd := st5.snakes.headI
      let cam :=
        if pEnd.isDead then w.camera
        else ⟨lerp w.camera.x pEnd.body.headI.x (1/10),
              lerp w.camera.y pEnd.body.headI.y (1/10)⟩
      { player := some pEnd
        bots := st5.snakes.tail
        food := st5.acc.food
        particles := particlesStep w.particles
        camera := cam
        scoreRef := st5.acc.scoreRef
        gameOvers := st5.acc.gameOvers
        pendingRespawns := st5.acc.pending
        lbPushes := if R.lbCoin then w.lbPushes ++ [leadersOf st5.snakes] else w.lbPushes }

/-- The creatures of a world in `allSnakes` order: the player (when present)
followed by the bots. -/
def worldSnakes (w : World) : List Snake :=
  w.player.toList ++ w.bots

/-- A fixed interpretation of the platform functions used by the concrete
scenarios: motion along the positive x-axis regardless of angle, pointer
angle 0, and a rational stand-in for `Math.PI`. -/
def envA : Env :=
  ⟨fun _ => 1, fun _ => 0, fun _ _ => 0, 355 / 113⟩

/-- Pointer resting at the viewport center, button up. -/
def inpA : Input :=
  ⟨0, 0, 0, 0, false⟩

/-- A tick's random sample with every coin false and every draw zero. -/
def rndA : TickRand :=
  ⟨fun _ => default, fun _ => default, fun _ _ => default, fun _ => default,
   fun _ _ _ => default, false⟩

/-- A freshly created player at the origin, heading 0. -/
def playerA : Snake :=
  createSnake "player-1" "You" 0 0 "#ef4444" false 0 0

/-- A value-10 consumable lying exactly where the player's head will be after
one motion step. -/
def foodA : Food :=
  ⟨"f0", 5, 0, 10, "hsl(0, 70%, 60%)", 4⟩

/-- Scenario world for C1: one player about to step onto one consumable. -/
def worldA : World :=
  ⟨some playerA, [], [foodA], [], ⟨0, 0⟩, 0, [], [], []⟩

/-- First bot for the C2 scenario, head at `(10, 0)`. -/
def botB1 : Snake :=
  createSnake "bot-0" "Bot 1" 10 0 "#3b82f6" true 0 0

/-- Second bot for the C2 scenario, head at `(10, 10)`. -/
def botB2 : Snake :=
  createSnake "bot-1" "Bot 2" 10 10 "#10b981" true 0 0

/-- Scenario world for C2: after the motion step the player's head at `(5,0)`
is within the lethal radius of both bots' bodies at once. -/
def worldB : World :=
  ⟨some playerA, [botB1, botB2], [], [], ⟨0, 0⟩, 0, [], [], []⟩

/-- First creature for the C3 scenario, head at `(5, 0)`. -/
def snakeC1 : Snake :=
  createSnake "player-1" "You" 5 0 "#ef4444" false 0 0

/-- Second creature for the C3 scenario, same head position. -/
def snakeC2 : Snake :=
  createSnake "bot-0" "Bot 1" 5 0 "#3b82f6" true 0 0

/-- Collision-stage state for C3: two living creatures with coincident
heads. -/
def stC : TickState :=
  ⟨[snakeC1, snakeC2], ⟨[], 0, [], []⟩⟩

/-- Scenario world for C10 and C6: the player is already dead, with arbitrary
nonempty remaining state. -/
def worldD : World :=
  ⟨some { playerA with isDead := true }, [botB1], [foodA], [⟨"p", 1, 2, 3, 4, 5, "w"⟩],
   ⟨1, 2⟩, 7, [3], [], [[("x", 9)]]⟩

/-- Platform sample for the C5 witness: pointer angle `1/100`, `pi = 4`. -/
def envC : Env :=
  ⟨fun _ => 1, fun _ => 0, fun _ _ => 1 / 100, 4⟩

/-- A player one motion step away from the arena boundary. -/
def playerE : Snake :=
  createSnake "player-1" "You" 1998 0 "#ef4444" false 0 0

/-- Scenario world for C6: the next motion step carries the player's head
past the right arena wall. -/
def worldE : World :=
  ⟨some playerE, [], [], [], ⟨0, 0⟩, 0, [], [], []⟩

/-- Threaded state holding a single consumable, for the C7 witness. -/
def accF : TickAcc :=
  ⟨[foodA], 0, [], []⟩

/-- A zero food-random supply. -/
def frZ : ℕ → FoodRand :=
  fun _ => default

/-- A nontrivial threaded state for the C9 witness. -/
def accZ : TickAcc :=
  ⟨[foodA], 5, [2], [botB2]⟩

/-- The player as it comes out of the C1 scenario tick. -/
def outPlayerA : Snake :=
  ((update envA inpA rndA worldA).player).getD default

/-- Food values are never negative; initially true and preserved by every
stage (the tick only creates consumables of value 5, 10 or 20). -/
def foodInv (l : List Food) : Prop :=
  ∀ f ∈ l, 0 ≤ f.value

lemma truncQ_of_nonneg {x : ℚ} (h : 0 ≤ x) : truncQ x = ⌊x⌋ := by
  simp [truncQ, not_lt.2 h]

lemma truncQ_of_neg {x : ℚ} (h : x < 0) : truncQ x = ⌈x⌉ := by
  simp [truncQ, h]

lemma jsMod_eq_sub (a b : ℚ) : ∃ k : ℤ, jsMod a b = a - b * k :=
  ⟨truncQ (a / b), rfl⟩

lemma jsMod_bounds_of_nonneg {a b : ℚ} (hb : 0 < b) (ha : 0 ≤ a) :
    0 ≤ jsMod a b ∧ jsMod a b < b := by
  have ht : 0 ≤ a / b := div_nonneg ha hb.le
  unfold jsMod
  rw [truncQ_of_nonneg ht]
  constructor
  · have h1 : (⌊a / b⌋ : ℚ) ≤ a / b := Int.floor_le _
    have h2 : b * (⌊a / b⌋ : ℚ) ≤ b * (a / b) := mul_le_mul_of_nonneg_left h1 hb.le
    have h3 : b * (a / b) = a := mul_div_cancel₀ a hb.ne'
    linarith
  · have h1 : a / b < (⌊a / b⌋ : ℚ) + 1 := Int.lt_floor_add_one _
    have h2 : a < ((⌊a / b⌋ : ℚ) + 1) * b := (div_lt_iff₀ hb).mp h1
    nlinarith

lemma jsMod_bounds_of_neg {a b : ℚ} (hb : 0 < b) (ha : a < 0) :
    -b < jsMod a b ∧ jsMod a b ≤ 0 := by
  have ht : a / b < 0 := div_neg_of_neg_of_pos ha hb
  unfold jsMod
  rw [truncQ_of_neg ht]
  constructor
  · have h1 : (⌈a / b⌉ : ℚ) < a / b + 1 := Int.ceil_lt_add_one _
    have h2 : b * (⌈a / b⌉ : ℚ) < b * (a / b + 1) := by
      exact mul_lt_mul_of_pos_left h1 hb
    have h3 : b * (a / b) = a := mul_div_cancel₀ a hb.ne'
    nlinarith
  · have h1 : a / b ≤ (⌈a / b⌉ : ℚ) := Int.le_ceil _
    have h2 : b * (a / b) ≤ b * (⌈a / b⌉ : ℚ) := mul_le_mul_of_nonneg_left h1 hb.le
    have h3 : b * (a / b) = a := mul_div_cancel₀ a hb.ne'
    linarith

lemma gsad_bounds {p : ℚ} (frm tgt : ℚ) (hp : 0 < p) :
    -p ≤ getShortestAngleDiff p frm tgt ∧ getShortestAngleDiff p frm tgt < p := by
  have hb : 0 < 2 * p := by linarith
  simp only [getShortestAngleDiff]
  rcases le_or_lt 0 (tgt - frm + p) with hx | hx
  · obtain ⟨h1, h2⟩ := jsMod_bounds_of_nonneg hb hx
    rw [if_neg (by linarith)]
    constructor <;> linarith
  · obtain ⟨h1, h2⟩ := jsMod_bounds_of_neg hb hx
    by_cases hc : jsMod (tgt - frm + p) (2 * p) - p < -p
    · rw [if_pos hc]
      constructor <;> linarith
    · rw [if_neg hc]
      push_neg at hc
      constructor <;> linarith

lemma gsad_congr (p frm tgt : ℚ) :
    ∃ k : ℤ, frm + getShortestAngleDiff p frm tgt = tgt + 2 * p * k := by
  obtain ⟨k, hk⟩ := jsMod_eq_sub (tgt - frm + p) (2 * p)
  simp only [getShortestAngleDiff]
  split
  · refine ⟨-k + 1, ?_⟩
    rw [hk]
    push_cast
    ring
  · refine ⟨-k, ?_⟩
    rw [hk]
    push_cast
    ring

/-- C4, counterexample.  At `from = 0`, `to = π` (with `π` standing in as the
model parameter `p = 4`) the code returns exactly `-π`: the result is not in
the open-below interval `(-π, π]`, and antisymmetry fails because both
orientations return `-π`. -/
theorem C4_counterexample :
    ¬ (-(4 : ℚ) < getShortestAngleDiff 4 0 4 ∧
       getShortestAngleDiff 4 0 4 = -getShortestAngleDiff 4 4 0) := by
  decide

/-- C4, amended.  `getShortestAngleDiff` returns a delta in the half-open
interval `[-π, π)` (closed below, open above — not `(-π, π]`) with
`from + delta ≡ to (mod 2π)`, and it is antisymmetric except at the boundary
output `-π`, where both orientations return `-π`. -/
theorem C4_amended_thm (p frm tgt : ℚ) (hp : 0 < p) :
    (-p ≤ getShortestAngleDiff p frm tgt ∧ getShortestAngleDiff p frm tgt < p) ∧
    (∃ k : ℤ, frm + getShortestAngleDiff p frm tgt = tgt + 2 * p * k) ∧
    (getShortestAngleDiff p frm tgt ≠ -p →
      getShortestAngleDiff p tgt frm = -getShortestAngleDiff p frm tgt) := by
  refine ⟨gsad_bounds frm tgt hp, gsad_congr p frm tgt, fun hne => ?_⟩
  obtain ⟨hu1, hu2⟩ := gsad_bounds frm tgt hp
  obtain ⟨hv1, hv2⟩ := gsad_bounds tgt frm hp
  obtain ⟨k1, hk1⟩ := gsad_congr p frm tgt
  obtain ⟨k2, hk2⟩ := gsad_congr p tgt frm
  set u := getShortestAngleDiff p frm tgt
  set v := getShortestAngleDiff p tgt frm
  have h2p : (0 : ℚ) < 2 * p := by linarith
  have hm : u + v = 2 * p * ((k1 + k2 : ℤ) : ℚ) := by push_cast; linarith
  have hub : 2 * p * ((k1 + k2 : ℤ) : ℚ) < 2 * p * 1 := by rw [mul_one]; linarith
  have hlb : 2 * p * (-1 : ℚ) ≤ 2 * p * ((k1 + k2 : ℤ) : ℚ) := by
    have hneg : 2 * p * (-1 : ℚ) = -(2 * p) := by ring
    rw [hneg]
    linarith
  have hmub : k1 + k2 < 1 := by exact_mod_cast (mul_lt_mul_left h2p).mp hub
  have hmlb : (-1 : ℤ) ≤ k1 + k2 := by exact_mod_cast (mul_le_mul_left h2p).mp hlb
  have hcases : k1 + k2 = -1 ∨ k1 + k2 = 0 := by omega
  rcases hcases with h | h
  · exfalso
    rw [h] at hm
    push_cast at hm
    exact hne (le_antisymm (by linarith) hu1)
  · rw [h] at hm
    push_cast at hm
    linarith

/-- C4, witness for the amended theorem at `p = 4`, `from = 0`, `to = 1`. -/
theorem C4_amended_witness :
    (0 : ℚ) < 4 ∧
    ((-(4 : ℚ) ≤ getShortestAngleDiff 4 0 1 ∧ getShortestAngleDiff 4 0 1 < 4) ∧
     (∃ k : ℤ, 0 + getShortestAngleDiff 4 0 1 = 1 + 2 * 4 * k) ∧
     (getShortestAngleDiff 4 0 1 ≠ -4 →
       getShortestAngleDiff 4 1 0 = -getShortestAngleDiff 4 0 1)) :=
  ⟨by norm_num, C4_amended_thm 4 0 1 (by norm_num)⟩

lemma signQ_mul_abs (d : ℚ) : signQ d * |d| = d := by
  unfold signQ
  rcases lt_trichotomy d 0 with h | h | h
  · rw [if_pos h, abs_of_neg h]
    ring
  · simp [h]
  · rw [if_neg (by linarith), if_pos h, abs_of_pos h]
    ring

lemma signQ_abs_le_one (d : ℚ) : |signQ d| ≤ 1 := by
  unfold signQ
  split
  · norm_num
  · split <;> norm_num

/-- C5.  For every environment with a positive `pi`, every pointer sample and
every player state, one steering step changes the heading by at most
`TURN_SPEED` in absolute value; and when the shortest signed delta to the
pointer angle is smaller in magnitude than `TURN_SPEED`, the new heading is
exactly the pointer angle modulo `2π`. -/
theorem C5_theorem (E : Env) (inp : Input) (s : Snake) :
    |(steerPlayer E inp s).angle - s.angle| ≤ TURN_SPEED ∧
    (|getShortestAngleDiff E.pi s.angle (targetAngleOf E inp)| < TURN_SPEED →
      ∃ k : ℤ, (steerPlayer E inp s).angle = targetAngleOf E inp + 2 * E.pi * k) := by
  set d := getShortestAngleDiff E.pi s.angle (targetAngleOf E inp) with hd
  have hangle : (steerPlayer E inp s).angle = s.angle + signQ d * min |d| TURN_SPEED := rfl
  have hminnn : 0 ≤ min |d| TURN_SPEED :=
    le_min (abs_nonneg d) (by norm_num [TURN_SPEED])
  constructor
  · rw [hangle]
    have h1 : s.angle + signQ d * min |d| TURN_SPEED - s.angle
        = signQ d * min |d| TURN_SPEED := by ring
    rw [h1, abs_mul, abs_of_nonneg hminnn]
    calc |signQ d| * min |d| TURN_SPEED
        ≤ 1 * min |d| TURN_SPEED := by
          exact mul_le_mul_of_nonneg_right (signQ_abs_le_one d) hminnn
      _ = min |d| TURN_SPEED := one_mul _
      _ ≤ TURN_SPEED := min_le_right _ _
  · intro hlt
    have hmin : min |d| TURN_SPEED = |d| := min_eq_left hlt.le
    obtain ⟨k, hk⟩ := gsad_congr E.pi s.angle (targetAngleOf E inp)
    rw [← hd] at hk
    refine ⟨k, ?_⟩
    rw [hangle, hmin, signQ_mul_abs]
    linarith

/-- C5, witness: `pi = 4`, heading `0`, pointer angle `1/100`; the shortest
delta `1/100` is below `TURN_SPEED = 12/100`, and one step lands exactly on
the target. -/
theorem C5_witness :
    |getShortestAngleDiff envC.pi playerA.angle (targetAngleOf envC inpA)| < TURN_SPEED ∧
    |(steerPlayer envC inpA playerA).angle - playerA.angle| ≤ TURN_SPEED ∧
    (∃ k : ℤ, (steerPlayer envC inpA playerA).angle
      = targetAngleOf envC inpA + 2 * envC.pi * k) := by
  have h := C5_theorem envC inpA playerA
  exact ⟨by decide, h.1, h.2 (by decide)⟩

/-- C1, counterexample.  One tick of `worldA`: the player (10 segments,
target length 10) steps onto a value-10 consumable.  At the end of the tick
it is alive with `body.length = 10` but `⌊length⌋ = 11`: the consumption
stage grows `length` after the motion stage already truncated the body, so
the claimed equality fails at the end of this `update()` call. -/
theorem C1_counterexample :
    ((update envA inpA rndA worldA).player.map
      (fun s => (s.isDead, s.body.length, ⌊s.length⌋))) = some (false, 10, 11) := by
  decide

/-- C2, evaluation of the failing input.  In `worldB` the player's post-move
head `(5,0)` is within the lethal radius of both living bots at once.  The
inner `return` after `killSnake(snakeA)` only exits the inner `forEach`
callback, so the sweep kills the player once per bot: `killSnake` runs twice
for the same creature in a single tick and the session-end event is pushed
twice (`gameOvers = [0, 0]`), contradicting the claimed at-most-once
short-circuit. -/
theorem C2_code_bug_eval :
    (update envA inpA rndA worldB).gameOvers = [0, 0] ∧
    ¬ ((update envA inpA rndA worldB).gameOvers.length ≤ 1) := by
  decide

/-- C3, counterexample.  Two living creatures with coincident heads
(`stC`): after the lethal-collision stage the creature evaluated second is
still alive, refuting the claim that the mutual check kills at least the
second one.  (It kills the first: the first sees the second's head segment
and dies; the second then skips the now-dead first.) -/
theorem C3_counterexample :
    ((stage5 rndA stC).snakes[1]?).map Snake.isDead = some false := by
  decide

/-- C10.  When the player ref is empty or the player is dead, `update()`
returns before touching anything: the whole world — bots, food, particles,
camera, score, event lists — is left exactly as it was. -/
theorem C10_theorem (E : Env) (inp : Input) (R : TickRand) (w : World)
    (h : w.player = none ∨ ∃ p, w.player = some p ∧ p.isDead = true) :
    update E inp R w = w := by
  rcases h with h | ⟨p, hp, hd⟩
  · simp [update, h]
  · simp [update, hp, hd]

/-- C10, witness: the dead-player world `worldD` passes through one tick
unchanged. -/
theorem C10_witness : update envA inpA rndA worldD = worldD :=
  C10_theorem envA inpA rndA worldD
    (Or.inr ⟨{ playerA with isDead := true }, rfl, rfl⟩)

lemma foldl_rel {β γ : Type} (R : β → β → Prop) (f : β → γ → β)
    (hrefl : ∀ b, R b b)
    (htrans : ∀ a b c, R a b → R b c → R a c)
    (hstep : ∀ b a, R b (f b a)) :
    ∀ (l : List γ) (b : β), R b (List.foldl f b l) := by
  intro l
  induction l with
  | nil => intro b; simpa using hrefl b
  | cons a l ih =>
    intro b
    rw [List.foldl_cons]
    exact htrans _ _ _ (hstep b a) (ih (f b a))

/-- Marking a snake dead. -/
def deadOf (s : Snake) : Snake :=
  { s with isDead := true }

/-- What the lethal-collision stage can do to the snake list: each entry is
either untouched or has just been marked dead. -/
def onlyKills (l l' : List Snake) : Prop :=
  l'.length = l.length ∧
  ∀ (j : ℕ) (s : Snake), l[j]? = some s → l'[j]? = some s ∨ l'[j]? = some (deadOf s)

lemma onlyKills_refl (l : List Snake) : onlyKills l l :=
  ⟨rfl, fun _ _ h => Or.inl h⟩

lemma deadOf_deadOf (s : Snake) : deadOf (deadOf s) = deadOf s := rfl

lemma deadOf_isDead (s : Snake) : (deadOf s).isDead = true := rfl

lemma deadOf_body (s : Snake) : (deadOf s).body = s.body := rfl

lemma deadOf_length (s : Snake) : (deadOf s).length = s.length := rfl

lemma deadOf_score (s : Snake) : (deadOf s).score = s.score := rfl

lemma deadOf_eq_self {s : Snake} (h : s.isDead = true) : deadOf s = s := by
  cases s
  simp_all [deadOf]

lemma onlyKills_trans {a b c : List Snake} (h1 : onlyKills a b) (h2 : onlyKills b c) :
    onlyKills a c := by
  refine ⟨h2.1.trans h1.1, fun j s hj => ?_⟩
  rcases h1.2 j s hj with h | h
  · exact h2.2 j s h
  · rcases h2.2 j _ h with h' | h'
    · exact Or.inr h'
    · rw [deadOf_deadOf] at h'
      exact Or.inr h'

lemma killSnakeLocal_fst (fr : ℕ → FoodRand) (s : Snake) (acc : TickAcc) :
    (killSnakeLocal fr s acc).1 = deadOf s := by
  unfold killSnakeLocal deadOf
  split <;> rfl

lemma killSnakeAt_onlyKills (fr : ℕ → FoodRand) (st : TickState) (a : ℕ) :
    onlyKills st.snakes (killSnakeAt fr st a).snakes := by
  unfold killSnakeAt
  cases h : st.snakes[a]? with
  | none => exact onlyKills_refl _
  | some s =>
    refine ⟨List.length_set .., fun j t hj => ?_⟩
    by_cases hja : a = j
    · subst hja
      have hlt : a < st.snakes.length := (List.getElem?_eq_some.mp hj).1
      have hts : t = s := by
        rw [hj] at h
        exact Option.some_injective _ h
      subst hts
      rw [List.getElem?_set_self hlt, killSnakeLocal_fst]
      exact Or.inr rfl
    · rw [List.getElem?_set_ne hja]
      exact Or.inl hj

lemma stage5Inner_onlyKills (R : TickRand) (a : ℕ) (hA : Point) (st : TickState) (b : ℕ) :
    onlyKills st.snakes (stage5Inner R a hA st b).snakes := by
  unfold stage5Inner
  cases st.snakes[b]? with
  | none => exact onlyKills_refl _
  | some sB =>
    dsimp only
    split
    · exact onlyKills_refl _
    · split
      · split
        · exact killSnakeAt_onlyKills ..
        · exact onlyKills_refl _
      · split
        · exact killSnakeAt_onlyKills ..
        · exact onlyKills_refl _

lemma stage5Outer_onlyKills (R : TickRand) (st : TickState) (a : ℕ) :
    onlyKills st.snakes (stage5Outer R st a).snakes := by
  unfold stage5Outer
  cases st.snakes[a]? with
  | none => exact onlyKills_refl _
  | some sA =>
    dsimp only
    split
    · exact onlyKills_refl _
    · exact foldl_rel (fun t t' : TickState => onlyKills t.snakes t'.snakes)
        (stage5Inner R a sA.body.headI)
        (fun t => onlyKills_refl t.snakes)
        (fun x y z hxy hyz => onlyKills_trans hxy hyz)
        (fun t b' => stage5Inner_onlyKills R a sA.body.headI t b') _ st

lemma stage5_onlyKills (R : TickRand) (st : TickState) :
    onlyKills st.snakes (stage5 R st).snakes := by
  unfold stage5
  exact foldl_rel (fun t t' : TickState => onlyKills t.snakes t'.snakes)
    (stage5Outer R)
    (fun t => onlyKills_refl t.snakes)
    (fun x y z hxy hyz => onlyKills_trans hxy hyz)
    (fun t a => stage5Outer_onlyKills R t a) _ st

lemma moveOne_fst (E : Env) (r : MoveRand) (fr : ℕ → FoodRand) (s : Snake) (acc : TickAcc) :
    (moveOne E r fr s acc).1 = moveSnakePure E s := by
  unfold moveOne moveSnakePure
  split
  · rfl
  · dsimp only
    split
    · rw [killSnakeLocal_fst]
      rfl
    · rfl

lemma truncateBody_le (body : List Point) (len : ℚ) (h : 0 ≤ len) :
    ((truncateBody body len).length : ℤ) ≤ ⌊len⌋ := by
  unfold truncateBody
  split
  · assumption
  · rw [List.length_take]
    have h0 : (0 : ℤ) ≤ ⌊len⌋ := Int.floor_nonneg.mpr h
    have : min ⌊len⌋.toNat body.length ≤ ⌊len⌋.toNat := min_le_left _ _
    calc ((min ⌊len⌋.toNat body.length : ℕ) : ℤ) ≤ (⌊len⌋.toNat : ℤ) := by
          exact_mod_cast this
      _ = ⌊len⌋ := Int.toNat_of_nonneg h0

lemma moveSnakePure_dead {s : Snake} (E : Env) (h : s.isDead = true) :
    moveSnakePure E s = s := by
  unfold moveSnakePure
  rw [if_pos h]

lemma moveSnakePure_score (E : Env) (s : Snake) :
    (moveSnakePure E s).score = s.score := by
  unfold moveSnakePure
  split
  · rfl
  · dsimp only
    split <;> rfl

lemma moveSnakePure_isDead_of_dead {s : Snake} (E : Env) (h : s.isDead = true) :
    (moveSnakePure E s).isDead = true := by
  rw [moveSnakePure_dead E h]
  exact h

lemma moveSnakePure_len_nonneg {s : Snake} (E : Env) (h0 : 0 ≤ s.length) :
    0 ≤ (moveSnakePure E s).length := by
  unfold moveSnakePure
  split
  · exact h0
  · dsimp only
    split
    · exact h0
    · dsimp only
      split
      · rename_i hboost
        have h10 : s.length > (INITIAL_LENGTH : ℚ) := by
          have := (Bool.and_eq_true _ _).mp hboost
          exact of_decide_eq_true this.2
        have : ((INITIAL_LENGTH : ℕ) : ℚ) = 10 := by norm_num [INITIAL_LENGTH]
        linarith [this ▸ h10]
      · exact h0

lemma moveSnakePure_bound {s : Snake} (E : Env) (h0 : 0 ≤ s.length)
    (halive : (moveSnakePure E s).isDead = false) :
    ((moveSnakePure E s).body.length : ℤ) ≤ ⌊(moveSnakePure E s).length⌋ := by
  have hnn := moveSnakePure_len_nonneg E h0
  unfold moveSnakePure at halive hnn ⊢
  split at halive
  · rename_i hdead
    rw [if_pos hdead] at hnn ⊢
    rw [hdead] at halive
    exact absurd halive (by simp)
  · rename_i hdead
    rw [if_neg hdead] at hnn ⊢
    dsimp only at halive hnn ⊢
    split at halive
    · simp at halive
    · rename_i hout
      rw [if_neg hout] at hnn ⊢
      exact truncateBody_le _ _ hnn

lemma moveSnakePure_oob {s : Snake} (E : Env) (halive : s.isDead = false)
    (hout : outB (movePoint E s.body.headI s.angle (speedOf s)) = true) :
    moveSnakePure E s = deadOf s := by
  unfold moveSnakePure
  rw [if_neg (by simp [halive]), if_pos hout]
  rfl

lemma carcass_value {g : Food} {fr : ℕ → FoodRand} {s : Snake} (h : g ∈ carcass fr s) :
    g.value = 20 := by
  unfold carcass at h
  obtain ⟨ia, _, hia⟩ := List.mem_filterMap.mp h
  by_cases hc : ia.1 % 3 = 0
  · rw [if_pos hc] at hia
    cases hia
    rfl
  · rw [if_neg hc] at hia
    cases hia

lemma killSnakeLocal_food (fr : ℕ → FoodRand) (s : Snake) (acc : TickAcc) :
    (killSnakeLocal fr s acc).2.food = acc.food ++ carcass fr s := by
  unfold killSnakeLocal
  split <;> rfl

lemma killSnakeLocal_foodInv {fr : ℕ → FoodRand} {s : Snake} {acc : TickAcc}
    (h : foodInv acc.food) : foodInv (killSnakeLocal fr s acc).2.food := by
  rw [killSnakeLocal_food]
  intro f hf
  rcases List.mem_append.mp hf with hf | hf
  · exact h f hf
  · rw [carcass_value hf]
    norm_num

lemma createFood_value (r : FoodRand) (ox oy : Option ℚ) (v : ℚ) :
    (createFood r ox oy v).value = v := rfl

lemma moveOne_foodInv {E : Env} {r : MoveRand} {fr : ℕ → FoodRand} {s : Snake}
    {acc : TickAcc} (h : foodInv acc.food) : foodInv (moveOne E r fr s acc).2.food := by
  unfold moveOne
  split
  · exact h
  · dsimp only
    split
    · exact killSnakeLocal_foodInv h
    · dsimp only
      split
      · intro f hf
        rcases List.mem_append.mp hf with hf | hf
        · exact h f hf
        · rcases List.mem_singleton.mp hf with rfl
          rw [createFood_value]
          norm_num
      · exact h

lemma stage3Go_length (E : Env) (R : TickRand) :
    ∀ (sl : List Snake) (k : ℕ) (acc : TickAcc),
      (stage3Go E R k sl acc).1.length = sl.length := by
  intro sl
  induction sl with
  | nil => intro k acc; rfl
  | cons s rest ih =>
    intro k acc
    unfold stage3Go
    dsimp only
    rw [List.length_cons, List.length_cons, ih]

lemma stage3Go_get (E : Env) (R : TickRand) :
    ∀ (sl : List Snake) (k : ℕ) (acc : TickAcc) (j : ℕ),
      ((stage3Go E R k sl acc).1)[j]? = (sl[j]?).map (moveSnakePure E) := by
  intro sl
  induction sl with
  | nil => intro k acc j; rfl
  | cons s rest ih =>
    intro k acc j
    unfold stage3Go
    dsimp only
    cases j with
    | zero => simp [moveOne_fst]
    | succ j => simp [ih]

lemma stage3Go_foodInv (E : Env) (R : TickRand) :
    ∀ (sl : List Snake) (k : ℕ) (acc : TickAcc), foodInv acc.food →
      foodInv (stage3Go E R k sl acc).2.food := by
  intro sl
  induction sl with
  | nil => intro k acc h; exact h
  | cons s rest ih =>
    intro k acc h
    unfold stage3Go
    dsimp only
    exact ih _ _ (moveOne_foodInv h)

lemma eatFoodList_eq_filter (c : Food → Bool) :
    ∀ l : List Food, eatFoodList c l = (l.filter (fun f => !c f), l.filter c) := by
  intro l
  induction l with
  | nil => rfl
  | cons f rest ih =>
    unfold eatFoodList
    rw [ih]
    by_cases hc : c f <;> simp [hc]

lemma eatOne_dead {s : Snake} (isP : Bool) (r : EatRand) (acc : TickAcc)
    (h : s.isDead = true) : eatOne isP r s acc = (s, acc) := by
  unfold eatOne
  rw [if_pos h]

lemma eatOne_fst_main (s : Snake) (acc : TickAcc) (isP : Bool) (r : EatRand)
    (hfood : foodInv acc.food) :
    (eatOne isP r s acc).1.body = s.body ∧
    (eatOne isP r s acc).1.isDead = s.isDead ∧
    s.score ≤ (eatOne isP r s acc).1.score ∧
    s.length ≤ (eatOne isP r s acc).1.length := by
  unfold eatOne
  split
  · exact ⟨rfl, rfl, le_refl _, le_refl _⟩
  · dsimp only
    have hv : 0 ≤ (((eatFoodList (eatsB s) acc.food).2).map Food.value).sum := by
      apply List.sum_nonneg
      intro x hx
      obtain ⟨f, hf, rfl⟩ := List.mem_map.mp hx
      rw [eatFoodList_eq_filter] at hf
      exact hfood f (List.mem_of_mem_filter hf)
    refine ⟨rfl, rfl, by linarith, by linarith⟩

lemma eatOne_snd_foodInv {s : Snake} {acc : TickAcc} (isP : Bool) (r : EatRand)
    (hfood : foodInv acc.food) : foodInv (eatOne isP r s acc).2.food := by
  unfold eatOne
  split
  · exact hfood
  · dsimp only
    split
    · intro f hf
      rcases List.mem_append.mp hf with hf | hf
      · rw [eatFoodList_eq_filter] at hf
        exact hfood f (List.mem_of_mem_filter hf)
      · rcases List.mem_singleton.mp hf with rfl
        rw [createFood_value]
        norm_num
    · intro f hf
      rw [eatFoodList_eq_filter] at hf
      exact hfood f (List.mem_of_mem_filter hf)

lemma stage4Go_main (R : TickRand) :
    ∀ (sl : List Snake) (k : ℕ) (acc : TickAcc), foodInv acc.food →
      foodInv (stage4Go R k sl acc).2.food ∧
      (stage4Go R k sl acc).1.length = sl.length ∧
      ∀ (j : ℕ) (s : Snake), sl[j]? = some s →
        ∃ s' : Snake, ((stage4Go R k sl acc).1)[j]? = some s' ∧
          s'.body = s.body ∧ s'.isDead = s.isDead ∧
          s.score ≤ s'.score ∧ s.length ≤ s'.length ∧
          (s.isDead = true → s' = s) := by
  intro sl
  induction sl with
  | nil =>
    intro k acc h
    refine ⟨h, rfl, fun j s hj => ?_⟩
    simp at hj
  | cons s0 rest ih =>
    intro k acc h
    unfold stage4Go
    dsimp only
    obtain ⟨ih1, ih2, ih3⟩ := ih (k + 1) (eatOne (k == 0) (R.eatRand k) s0 acc).2
      (eatOne_snd_foodInv _ _ h)
    refine ⟨ih1, by rw [List.length_cons, List.length_cons, ih2], fun j s hj => ?_⟩
    cases j with
    | zero =>
      rw [List.getElem?_cons_zero] at hj
      injection hj with hj
      subst hj
      obtain ⟨hb, hd, hs, hl⟩ := eatOne_fst_main s0 acc (k == 0) (R.eatRand k) h
      refine ⟨(eatOne (k == 0) (R.eatRand k) s0 acc).1, by simp, hb, hd, hs, hl, ?_⟩
      intro hdead
      rw [eatOne_dead _ _ _ hdead]
    | succ j =>
      rw [List.getElem?_cons_succ] at hj
      obtain ⟨s', hj', hprops⟩ := ih3 j s hj
      exact ⟨s', by simpa using hj', hprops⟩

lemma botAI_dead {b : Snake} (E : Env) (r : BotRand) (h : b.isDead = true) :
    botAI E r b = b := by
  unfold botAI
  rw [if_pos h]

lemma botAI_fields (E : Env) (r : BotRand) (b : Snake) :
    (botAI E r b).body = b.body ∧ (botAI E r b).length = b.length ∧
    (botAI E r b).score = b.score ∧ (botAI E r b).isDead = b.isDead := by
  unfold botAI
  split
  · exact ⟨rfl, rfl, rfl, rfl⟩
  · exact ⟨rfl, rfl, rfl, rfl⟩

lemma botsAI_length (E : Env) (br : ℕ → BotRand) :
    ∀ (bl : List Snake) (i : ℕ), (botsAI E br i bl).length = bl.length := by
  intro bl
  induction bl with
  | nil => intro i; rfl
  | cons b bs ih =>
    intro i
    unfold botsAI
    rw [List.length_cons, List.length_cons, ih]

lemma botsAI_get (E : Env) (br : ℕ → BotRand) :
    ∀ (bl : List Snake) (i j : ℕ),
      (botsAI E br i bl)[j]? = (bl[j]?).map (botAI E (br (i + j))) := by
  intro bl
  induction bl with
  | nil => intro i j; rfl
  | cons b bs ih =>
    intro i j
    unfold botsAI
    cases j with
    | zero => simp
    | succ j =>
      have harith : i + 1 + j = i + (j + 1) := by omega
      simp [ih, harith]

lemma stage4Go_length (R : TickRand) :
    ∀ (sl : List Snake) (k : ℕ) (acc : TickAcc),
      (stage4Go R k sl acc).1.length = sl.length := by
  intro sl
  induction sl with
  | nil => intro k acc; rfl
  | cons s rest ih =>
    intro k acc
    unfold stage4Go
    dsimp only
    rw [List.length_cons, List.length_cons, ih]

lemma headI_cons_tail {l : List Snake} (h : l ≠ []) : l.headI :: l.tail = l := by
  cases l with
  | nil => exact absurd rfl h
  | cons a t => rfl

lemma update_snakes_eq (E : Env) (inp : Input) (R : TickRand) (w : World) (p0 : Snake)
    (hp : w.player = some p0) (hpd : p0.isDead = false) :
    worldSnakes (update E inp R w) =
      (stage5 R ⟨(stage4Go R 0
          (stage3Go E R 0 (steerPlayer E inp p0 :: botsAI E R.botRand 0 w.bots)
            ⟨w.food, w.scoreRef, w.gameOvers, w.pendingRespawns⟩).1
          (stage3Go E R 0 (steerPlayer E inp p0 :: botsAI E R.botRand 0 w.bots)
            ⟨w.food, w.scoreRef, w.gameOvers, w.pendingRespawns⟩).2).1,
        (stage4Go R 0
          (stage3Go E R 0 (steerPlayer E inp p0 :: botsAI E R.botRand 0 w.bots)
            ⟨w.food, w.scoreRef, w.gameOvers, w.pendingRespawns⟩).1
          (stage3Go E R 0 (steerPlayer E inp p0 :: botsAI E R.botRand 0 w.bots)
            ⟨w.food, w.scoreRef, w.gameOvers, w.pendingRespawns⟩).2).2⟩).snakes := by
  have hne : (stage5 R ⟨(stage4Go R 0
          (stage3Go E R 0 (steerPlayer E inp p0 :: botsAI E R.botRand 0 w.bots)
            ⟨w.food, w.scoreRef, w.gameOvers, w.pendingRespawns⟩).1
          (stage3Go E R 0 (steerPlayer E inp p0 :: botsAI E R.botRand 0 w.bots)
            ⟨w.food, w.scoreRef, w.gameOvers, w.pendingRespawns⟩).2).1,
        (stage4Go R 0
          (stage3Go E R 0 (steerPlayer E inp p0 :: botsAI E R.botRand 0 w.bots)
            ⟨w.food, w.scoreRef, w.gameOvers, w.pendingRespawns⟩).1
          (stage3Go E R 0 (steerPlayer E inp p0 :: botsAI E R.botRand 0 w.bots)
            ⟨w.food, w.scoreRef, w.gameOvers, w.pendingRespawns⟩).2).2⟩).snakes ≠ [] := by
    intro hnil
    have hlen := congrArg List.length hnil
    rw [(stage5_onlyKills R _).1] at hlen
    dsimp only at hlen
    rw [stage4Go_length, stage3Go_length] at hlen
    exact absurd hlen (by simp)
  simp only [update, hp, hpd, Bool.false_eq_true, if_false, worldSnakes]
  rw [Option.toList_some]
  exact headI_cons_tail hne

lemma update_pointwise (E : Env) (inp : Input) (R : TickRand) (w : World) (p0 : Snake)
    (hp : w.player = some p0) (hpd : p0.isDead = false) (hfood : foodInv w.food)
    (j : ℕ) (s0 : Snake)
    (hj : (steerPlayer E inp p0 :: botsAI E R.botRand 0 w.bots)[j]? = some s0) :
    ∃ s4 : Snake,
      s4.body = (moveSnakePure E s0).body ∧
      s4.isDead = (moveSnakePure E s0).isDead ∧
      (moveSnakePure E s0).score ≤ s4.score ∧
      (moveSnakePure E s0).length ≤ s4.length ∧
      ((moveSnakePure E s0).isDead = true → s4 = moveSnakePure E s0) ∧
      ((worldSnakes (update E inp R w))[j]? = some s4 ∨
       (worldSnakes (update E inp R w))[j]? = some (deadOf s4)) := by
  have h3get : ((stage3Go E R 0 (steerPlayer E inp p0 :: botsAI E R.botRand 0 w.bots)
      ⟨w.food, w.scoreRef, w.gameOvers, w.pendingRespawns⟩).1)[j]?
      = some (moveSnakePure E s0) := by
    rw [stage3Go_get, hj]
    rfl
  have h3inv : foodInv (stage3Go E R 0 (steerPlayer E inp p0 :: botsAI E R.botRand 0 w.bots)
      ⟨w.food, w.scoreRef, w.gameOvers, w.pendingRespawns⟩).2.food :=
    stage3Go_foodInv E R _ 0 _ hfood
  obtain ⟨-, -, h4⟩ := stage4Go_main R
    (stage3Go E R 0 (steerPlayer E inp p0 :: botsAI E R.botRand 0 w.bots)
      ⟨w.food, w.scoreRef, w.gameOvers, w.pendingRespawns⟩).1 0
    (stage3Go E R 0 (steerPlayer E inp p0 :: botsAI E R.botRand 0 w.bots)
      ⟨w.food, w.scoreRef, w.gameOvers, w.pendingRespawns⟩).2 h3inv
  obtain ⟨s4, h4get, hbody, hdead, hscore, hlen, hexact⟩ := h4 j (moveSnakePure E s0) h3get
  refine ⟨s4, hbody, hdead, hscore, hlen, hexact, ?_⟩
  have h5 := (stage5_onlyKills R ⟨(stage4Go R 0
      (stage3Go E R 0 (steerPlayer E inp p0 :: botsAI E R.botRand 0 w.bots)
        ⟨w.food, w.scoreRef, w.gameOvers, w.pendingRespawns⟩).1
      (stage3Go E R 0 (steerPlayer E inp p0 :: botsAI E R.botRand 0 w.bots)
        ⟨w.food, w.scoreRef, w.gameOvers, w.pendingRespawns⟩).2).1,
    (stage4Go R 0
      (stage3Go E R 0 (steerPlayer E inp p0 :: botsAI E R.botRand 0 w.bots)
        ⟨w.food, w.scoreRef, w.gameOvers, w.pendingRespawns⟩).1
      (stage3Go E R 0 (steerPlayer E inp p0 :: botsAI E R.botRand 0 w.bots)
        ⟨w.food, w.scoreRef, w.gameOvers, w.pendingRespawns⟩).2).2⟩).2 j s4 h4get
  rw [update_snakes_eq E inp R w p0 hp hpd]
  exact h5

lemma update_snakes_length (E : Env) (inp : Input) (R : TickRand) (w : World) (p0 : Snake)
    (hp : w.player = some p0) (hpd : p0.isDead = false) :
    (worldSnakes (update E inp R w)).length = w.bots.length + 1 := by
  rw [update_snakes_eq E inp R w p0 hp hpd]
  rw [(stage5_onlyKills R _).1]
  dsimp only
  rw [stage4Go_length, stage3Go_length, List.length_cons, botsAI_length]

lemma worldSnakes_of_player {w : World} {p0 : Snake} (hp : w.player = some p0) :
    worldSnakes w = p0 :: w.bots := by
  unfold worldSnakes
  rw [hp]
  rfl

/-- C1, amended.  At the end of a tick that actually runs, every creature
that is still alive satisfies `segments.length ≤ floor(targetLength)` — the
inequality can be strict in a tick in which the creature consumed food,
because the consumption stage grows `targetLength` after the motion stage
already clamped the body (the counterexample shows equality failing). -/
theorem C1_amended_thm (E : Env) (inp : Input) (R : TickRand) (w : World) (p0 : Snake)
    (j : ℕ) (s' : Snake)
    (hp : w.player = some p0) (hpd : p0.isDead = false)
    (hfood : ∀ f ∈ w.food, 0 ≤ f.value)
    (hlen : ∀ s ∈ worldSnakes w, 0 ≤ s.length)
    (hj : (worldSnakes (update E inp R w))[j]? = some s')
    (halive : s'.isDead = false) :
    (s'.body.length : ℤ) ≤ ⌊s'.length⌋ := by
  have hjlt : j < w.bots.length + 1 := by
    have h := (List.getElem?_eq_some.mp hj).1
    rwa [update_snakes_length E inp R w p0 hp hpd] at h
  have hjlt' : j < (steerPlayer E inp p0 :: botsAI E R.botRand 0 w.bots).length := by
    rw [List.length_cons, botsAI_length]
    exact hjlt
  have hs0 : (steerPlayer E inp p0 :: botsAI E R.botRand 0 w.bots)[j]?
      = some ((steerPlayer E inp p0 :: botsAI E R.botRand 0 w.bots).get ⟨j, hjlt'⟩) := by
    rw [List.getElem?_eq_getElem hjlt']
    rfl
  set s0 := (steerPlayer E inp p0 :: botsAI E R.botRand 0 w.bots).get ⟨j, hjlt'⟩ with hs0def
  have hs0len : 0 ≤ s0.length := by
    cases j with
    | zero =>
      have : s0 = steerPlayer E inp p0 := by
        rw [List.getElem?_cons_zero] at hs0
        exact (Option.some_injective _ hs0).symm
      rw [this]
      exact hlen p0 (by rw [worldSnakes_of_player hp]; exact List.mem_cons_self _ _)
    | succ i =>
      rw [List.getElem?_cons_succ, botsAI_get] at hs0
      cases hb : w.bots[i]? with
      | none => rw [hb] at hs0; cases hs0
      | some b =>
        rw [hb] at hs0
        have hmem : b ∈ w.bots := by
          have := (List.getElem?_eq_some.mp hb).1
          rw [List.getElem?_eq_getElem this] at hb
          injection hb with hb
          rw [← hb]
          exact List.getElem_mem _
        have hs0b : s0 = botAI E (R.botRand (0 + i)) b := by
          injection hs0 with h
          exact h.symm
        rw [hs0b, (botAI_fields E _ b).2.1]
        exact hlen b (by rw [worldSnakes_of_player hp]; exact List.mem_cons_of_mem _ hmem)
  obtain ⟨s4, hbody, hdead, hscore, hl4, hexact, hout⟩ :=
    update_pointwise E inp R w p0 hp hpd hfood j s0 hs0
  rcases hout with hcase | hcase
  · rw [hj] at hcase
    have hs4 : s4 = s' := Option.some_injective _ hcase.symm
    have hmspdead : (moveSnakePure E s0).isDead = false := by
      rw [← hdead, hs4]
      exact halive
    have hb := moveSnakePure_bound E hs0len hmspdead
    rw [← hs4]
    calc (s4.body.length : ℤ) = ((moveSnakePure E s0).body.length : ℤ) := by rw [hbody]
      _ ≤ ⌊(moveSnakePure E s0).length⌋ := hb
      _ ≤ ⌊s4.length⌋ := Int.floor_le_floor hl4
  · rw [hj] at hcase
    have hs4 : deadOf s4 = s' := Option.some_injective _ hcase.symm
    rw [← hs4] at halive
    rw [deadOf_isDead] at halive
    cases halive

/-- C1, amended, witness: the C1 scenario tick satisfies the amended
inequality for the player (`10 ≤ ⌊11⌋`). -/
theorem C1_amended_witness :
    ((outPlayerA.body.length : ℤ) ≤ ⌊outPlayerA.length⌋) :=
  C1_amended_thm envA inpA rndA worldA playerA 0 outPlayerA rfl rfl
    (by intro f hf; fin_cases hf; norm_num [foodA])
    (by intro s hs; fin_cases hs; norm_num [worldSnakes, worldA, playerA, createSnake,
      INITIAL_LENGTH])
    (by decide) (by decide)

/-- C8.  During a tick, no creature's score decreases: steering, motion and
collision never touch the score, and the consumption stage only adds values
of consumables, which are never negative. -/
theorem C8_theorem (E : Env) (inp : Input) (R : TickRand) (w : World)
    (j : ℕ) (s s2 : Snake)
    (hfood : ∀ f ∈ w.food, 0 ≤ f.value)
    (hj : (worldSnakes w)[j]? = some s)
    (hj2 : (worldSnakes (update E inp R w))[j]? = some s2) :
    s.score ≤ s2.score := by
  cases hpcase : w.player with
  | none =>
    rw [show update E inp R w = w from by simp [update, hpcase]] at hj2
    rw [hj] at hj2
    injection hj2 with h
    rw [h]
  | some p0 =>
    by_cases hpd : p0.isDead = true
    · rw [show update E inp R w = w from by simp [update, hpcase, hpd]] at hj2
      rw [hj] at hj2
      injection hj2 with h
      rw [h]
    · have hpd' : p0.isDead = false := by simpa using hpd
      obtain ⟨s0, hs0, hs0score⟩ : ∃ s0 : Snake,
          (steerPlayer E inp p0 :: botsAI E R.botRand 0 w.bots)[j]? = some s0 ∧
          s0.score = s.score := by
        cases j with
        | zero =>
          rw [worldSnakes_of_player hpcase, List.getElem?_cons_zero] at hj
          injection hj with hj
          exact ⟨steerPlayer E inp p0, by rw [List.getElem?_cons_zero],
            by rw [← hj]; rfl⟩
        | succ i =>
          rw [worldSnakes_of_player hpcase, List.getElem?_cons_succ] at hj
          refine ⟨botAI E (R.botRand (0 + i)) s, ?_, (botAI_fields E _ s).2.2.1⟩
          rw [List.getElem?_cons_succ, botsAI_get, hj]
          rfl
      obtain ⟨s4, hbody, hdead, hscore, hl4, hexact, hout⟩ :=
        update_pointwise E inp R w p0 hpcase hpd' hfood j s0 hs0
      have hmsp : (moveSnakePure E s0).score = s0.score := moveSnakePure_score E s0
      rcases hout with hcase | hcase
      · rw [hj2] at hcase
        have h : s4 = s2 := Option.some_injective _ hcase.symm
        rw [← h, ← hs0score, ← hmsp]
        exact hscore
      · rw [hj2] at hcase
        have h : deadOf s4 = s2 := Option.some_injective _ hcase.symm
        rw [← h, deadOf_score, ← hs0score, ← hmsp]
        exact hscore

/-- C8, witness: in the C1 scenario the player's score goes from 0 to 10. -/
theorem C8_witness : playerA.score ≤ outPlayerA.score :=
  C8_theorem envA inpA rndA worldA 0 playerA outPlayerA
    (by intro f hf; fin_cases hf; norm_num [foodA])
    (by decide) (by decide)

lemma eatOne_fst_basic (isP : Bool) (r : EatRand) (s : Snake) (acc : TickAcc) :
    (eatOne isP r s acc).1.body = s.body ∧ (eatOne isP r s acc).1.isDead = s.isDead := by
  unfold eatOne
  split
  · exact ⟨rfl, rfl⟩
  · exact ⟨rfl, rfl⟩

lemma stage4Go_basic (R : TickRand) :
    ∀ (sl : List Snake) (k : ℕ) (acc : TickAcc),
      ∀ (j : ℕ) (s : Snake), sl[j]? = some s →
        ∃ s' : Snake, ((stage4Go R k sl acc).1)[j]? = some s' ∧
          s'.body = s.body ∧ s'.isDead = s.isDead ∧ (s.isDead = true → s' = s) := by
  intro sl
  induction sl with
  | nil =>
    intro k acc j s hj
    simp at hj
  | cons s0 rest ih =>
    intro k acc j s hj
    unfold stage4Go
    dsimp only
    cases j with
    | zero =>
      rw [List.getElem?_cons_zero] at hj
      injection hj with hj
      subst hj
      obtain ⟨hb, hd⟩ := eatOne_fst_basic (k == 0) (R.eatRand k) s0 acc
      refine ⟨(eatOne (k == 0) (R.eatRand k) s0 acc).1, by simp, hb, hd, ?_⟩
      intro hdead
      rw [eatOne_dead _ _ _ hdead]
    | succ j =>
      rw [List.getElem?_cons_succ] at hj
      obtain ⟨s', hj', hprops⟩ := ih (k + 1) _ j s hj
      exact ⟨s', by simpa using hj', hprops⟩

lemma update_pointwise_basic (E : Env) (inp : Input) (R : TickRand) (w : World) (p0 : Snake)
    (hp : w.player = some p0) (hpd : p0.isDead = false)
    (j : ℕ) (s0 : Snake)
    (hj : (steerPlayer E inp p0 :: botsAI E R.botRand 0 w.bots)[j]? = some s0) :
    ∃ s4 : Snake,
      s4.body = (moveSnakePure E s0).body ∧
      s4.isDead = (moveSnakePure E s0).isDead ∧
      ((moveSnakePure E s0).isDead = true → s4 = moveSnakePure E s0) ∧
      ((worldSnakes (update E inp R w))[j]? = some s4 ∨
       (worldSnakes (update E inp R w))[j]? = some (deadOf s4)) := by
  have h3get : ((stage3Go E R 0 (steerPlayer E inp p0 :: botsAI E R.botRand 0 w.bots)
      ⟨w.food, w.scoreRef, w.gameOvers, w.pendingRespawns⟩).1)[j]?
      = some (moveSnakePure E s0) := by
    rw [stage3Go_get, hj]
    rfl
  obtain ⟨s4, h4get, hbody, hdead, hexact⟩ := stage4Go_basic R
    (stage3Go E R 0 (steerPlayer E inp p0 :: botsAI E R.botRand 0 w.bots)
      ⟨w.food, w.scoreRef, w.gameOvers, w.pendingRespawns⟩).1 0
    (stage3Go E R 0 (steerPlayer E inp p0 :: botsAI E R.botRand 0 w.bots)
      ⟨w.food, w.scoreRef, w.gameOvers, w.pendingRespawns⟩).2 j
    (moveSnakePure E s0) h3get
  refine ⟨s4, hbody, hdead, hexact, ?_⟩
  have h5 := (stage5_onlyKills R ⟨(stage4Go R 0
      (stage3Go E R 0 (steerPlayer E inp p0 :: botsAI E R.botRand 0 w.bots)
        ⟨w.food, w.scoreRef, w.gameOvers, w.pendingRespawns⟩).1
      (stage3Go E R 0 (steerPlayer E inp p0 :: botsAI E R.botRand 0 w.bots)
        ⟨w.food, w.scoreRef, w.gameOvers, w.pendingRespawns⟩).2).1,
    (stage4Go R 0
      (stage3Go E R 0 (steerPlayer E inp p0 :: botsAI E R.botRand 0 w.bots)
        ⟨w.food, w.scoreRef, w.gameOvers, w.pendingRespawns⟩).1
      (stage3Go E R 0 (steerPlayer E inp p0 :: botsAI E R.botRand 0 w.bots)
        ⟨w.food, w.scoreRef, w.gameOvers, w.pendingRespawns⟩).2).2⟩).2 j s4 h4get
  rw [update_snakes_eq E inp R w p0 hp hpd]
  exact h5

/-- C6.  (1) A living creature whose motion-integrated head leaves the arena
is dead at the end of that same tick, its body untouched by the kill.  (2) A
creature that is dead at the start of a tick comes out of the tick entirely
unchanged (body included).  (3) Hence over any sequence of subsequent ticks a
dead creature's body is never modified. -/
theorem C6_theorem (E : Env) (inp : Input) (R : TickRand) (w : World) (j : ℕ) :
    (∀ p0 s : Snake, w.player = some p0 → p0.isDead = false →
      (steerPlayer E inp p0 :: botsAI E R.botRand 0 w.bots)[j]? = some s →
      s.isDead = false →
      outB (movePoint E s.body.headI s.angle (speedOf s)) = true →
      (worldSnakes (update E inp R w))[j]? = some (deadOf s)) ∧
    (∀ s : Snake, (worldSnakes w)[j]? = some s → s.isDead = true →
      (worldSnakes (update E inp R w))[j]? = some s) ∧
    (∀ (s : Snake) (steps : List (Env × Input × TickRand)),
      (worldSnakes w)[j]? = some s → s.isDead = true →
      (worldSnakes (steps.foldl (fun w' t => update t.1 t.2.1 t.2.2 w') w))[j]?
        = some s) := by
  have part2 : ∀ (E' : Env) (inp' : Input) (R' : TickRand) (w' : World) (s : Snake),
      (worldSnakes w')[j]? = some s → s.isDead = true →
      (worldSnakes (update E' inp' R' w'))[j]? = some s := by
    intro E' inp' R' w' s hj hdead
    cases hpcase : w'.player with
    | none => rw [show update E' inp' R' w' = w' from by simp [update, hpcase]]; exact hj
    | some p0 =>
      by_cases hpd : p0.isDead = true
      · rw [show update E' inp' R' w' = w' from by simp [update, hpcase, hpd]]
        exact hj
      · have hpd' : p0.isDead = false := by simpa using hpd
        obtain ⟨s0, hs0, hs0eq⟩ : ∃ s0 : Snake,
            (steerPlayer E' inp' p0 :: botsAI E' R'.botRand 0 w'.bots)[j]? = some s0 ∧
            s0 = s := by
          cases j with
          | zero =>
            rw [worldSnakes_of_player hpcase, List.getElem?_cons_zero] at hj
            injection hj with hj
            rw [← hj] at hdead
            rw [hdead] at hpd'
            cases hpd'
          | succ i =>
            rw [worldSnakes_of_player hpcase, List.getElem?_cons_succ] at hj
            refine ⟨botAI E' (R'.botRand (0 + i)) s, ?_, botAI_dead E' _ hdead⟩
            rw [List.getElem?_cons_succ, botsAI_get, hj]
            rfl
        subst hs0eq
        obtain ⟨s4, hbody, hdead4, hexact, hout⟩ :=
          update_pointwise_basic E' inp' R' w' p0 hpcase hpd' j s0 hs0
        have hmsp : moveSnakePure E' s0 = s0 := moveSnakePure_dead E' hdead
        have hs4 : s4 = s0 := by
          rw [hmsp] at hexact
          exact hexact hdead
        rcases hout with hcase | hcase
        · rw [hs4] at hcase
          exact hcase
        · rw [hs4, deadOf_eq_self hdead] at hcase
          exact hcase
  refine ⟨?_, part2 E inp R w, ?_⟩
  · intro p0 s hp hpd hj halive hout
    obtain ⟨s4, hbody, hdead4, hexact, houtc⟩ :=
      update_pointwise_basic E inp R w p0 hp hpd j s hj
    have hmsp : moveSnakePure E s = deadOf s := moveSnakePure_oob E halive hout
    have hs4 : s4 = deadOf s := by
      rw [hmsp] at hexact
      exact hexact (deadOf_isDead s)
    rcases houtc with hcase | hcase
    · rw [hs4] at hcase
      exact hcase
    · rw [hs4, deadOf_deadOf] at hcase
      exact hcase
  · intro s steps
    induction steps generalizing w with
    | nil => intro hj hdead; exact hj
    | cons t ts ih =>
      intro hj hdead
      rw [List.foldl_cons]
      exact ih (update t.1 t.2.1 t.2.2 w) (part2 t.1 t.2.1 t.2.2 w s hj hdead) hdead

/-- C6, witness: in `worldE` the player's next head position `(2003, 0)` is
outside the arena; conjunct (1) of the theorem yields the dead player with
unchanged body at index 0. -/
theorem C6_witness :
    (worldSnakes (update envA inpA rndA worldE))[0]?
      = some (deadOf (steerPlayer envA inpA playerE)) :=
  (C6_theorem envA inpA rndA worldE 0).1 playerE (steerPlayer envA inpA playerE)
    rfl rfl (by decide) (by decide) (by decide)

lemma distLt_self (x : Point) : distLt x x 20 = true := by
  simp [distLt, distSq]

lemma segmentHit_of_short {body : List Point} (p : Point) (h : body.length ≤ 10) :
    segmentHit p body 10 = false := by
  unfold segmentHit
  rw [List.drop_eq_nil_of_le h]
  rfl

lemma segmentHit_head {body : List Point} {hb : Point} {tb : List Point} (p : Point)
    (hcons : body = hb :: tb) (hdist : distLt p hb 20 = true) :
    segmentHit p body 0 = true := by
  unfold segmentHit
  rw [hcons, List.drop_zero, List.any_eq_true]
  refine ⟨(0, hb), ?_, ?_⟩
  · exact List.mk_mem_enum_iff_getElem?.mpr (by simp)
  · simp [hdist]

/-- C3, amended.  When exactly two living creatures have coincident heads at
the start of the lethal-collision stage (and neither is long enough to
trigger its own self-collision scan), the stage kills the creature evaluated
FIRST in iteration order: the first sees the second's head segment and dies;
the second then skips the now-dead first and survives. -/
theorem C3_amended_thm (R : TickRand) (sA sB : Snake) (acc : TickAcc)
    (hA : sA.isDead = false) (hB : sB.isDead = false)
    (hBne : sB.body ≠ [])
    (hhead : sA.body.headI = sB.body.headI)
    (hlenA : sA.body.length ≤ 10) (hlenB : sB.body.length ≤ 10) :
    (stage5 R ⟨[sA, sB], acc⟩).snakes = [deadOf sA, sB] := by
  obtain ⟨hb, tb, hcons⟩ : ∃ (h : Point) (t : List Point), sB.body = h :: t := by
    cases hbody : sB.body with
    | nil => exact absurd hbody hBne
    | cons h t => exact ⟨h, t, rfl⟩
  have hhb : hb = sA.body.headI := by
    rw [hhead, hcons]
    rfl
  have hsegA : segmentHit sA.body.headI sA.body 10 = false :=
    segmentHit_of_short _ hlenA
  have hsegB : segmentHit sA.body.headI sB.body 0 = true :=
    segmentHit_head _ hcons (by rw [hhb]; exact distLt_self _)
  have hsegB1 : segmentHit sB.body.headI sB.body 10 = false :=
    segmentHit_of_short _ hlenB
  have hk : killSnakeAt (R.kill5Food 0 1) ⟨[sA, sB], acc⟩ 0
      = ⟨[deadOf sA, sB], (killSnakeLocal (R.kill5Food 0 1) sA acc).2⟩ := by
    unfold killSnakeAt
    show TickState.mk ([sA, sB].set 0 (killSnakeLocal (R.kill5Food 0 1) sA acc).1) _ = _
    rw [killSnakeLocal_fst]
    rfl
  have hInner0 : stage5Inner R 0 sA.body.headI ⟨[sA, sB], acc⟩ 0 = ⟨[sA, sB], acc⟩ := by
    unfold stage5Inner
    simp [hA, hsegA]
  have hInner1 : stage5Inner R 0 sA.body.headI ⟨[sA, sB], acc⟩ 1
      = ⟨[deadOf sA, sB], (killSnakeLocal (R.kill5Food 0 1) sA acc).2⟩ := by
    unfold stage5Inner
    simp [hB, hsegB, hk]
  have hOuter0 : stage5Outer R ⟨[sA, sB], acc⟩ 0
      = ⟨[deadOf sA, sB], (killSnakeLocal (R.kill5Food 0 1) sA acc).2⟩ := by
    unfold stage5Outer
    show (if sA.isDead = true then _ else _) = _
    rw [if_neg (by simp [hA])]
    show (List.range 2).foldl (stage5Inner R 0 sA.body.headI) ⟨[sA, sB], acc⟩ = _
    rw [show List.range 2 = [0, 1] from rfl, List.foldl_cons, hInner0, List.foldl_cons,
      hInner1, List.foldl_nil]
  have hInner1b0 : stage5Inner R 1 sB.body.headI
      ⟨[deadOf sA, sB], (killSnakeLocal (R.kill5Food 0 1) sA acc).2⟩ 0
      = ⟨[deadOf sA, sB], (killSnakeLocal (R.kill5Food 0 1) sA acc).2⟩ := by
    unfold stage5Inner
    simp [deadOf_isDead]
  have hInner1b1 : stage5Inner R 1 sB.body.headI
      ⟨[deadOf sA, sB], (killSnakeLocal (R.kill5Food 0 1) sA acc).2⟩ 1
      = ⟨[deadOf sA, sB], (killSnakeLocal (R.kill5Food 0 1) sA acc).2⟩ := by
    unfold stage5Inner
    simp [hB, hsegB1]
  have hOuter1 : stage5Outer R
      ⟨[deadOf sA, sB], (killSnakeLocal (R.kill5Food 0 1) sA acc).2⟩ 1
      = ⟨[deadOf sA, sB], (killSnakeLocal (R.kill5Food 0 1) sA acc).2⟩ := by
    unfold stage5Outer
    show (if sB.isDead = true then _ else _) = _
    rw [if_neg (by simp [hB])]
    show (List.range 2).foldl (stage5Inner R 1 sB.body.headI) _ = _
    rw [show List.range 2 = [0, 1] from rfl, List.foldl_cons, hInner1b0, List.foldl_cons,
      hInner1b1, List.foldl_nil]
  show ((List.range 2).foldl (stage5Outer R) ⟨[sA, sB], acc⟩).snakes = _
  rw [show List.range 2 = [0, 1] from rfl, List.foldl_cons, hOuter0, List.foldl_cons,
    hOuter1, List.foldl_nil]

/-- C3, amended, witness: the concrete coincident-heads scenario `stC` ends
with the first creature dead and the second alive. -/
theorem C3_amended_witness :
    (stage5 rndA stC).snakes = [deadOf snakeC1, snakeC2] :=
  C3_amended_thm rndA snakeC1 snakeC2 ⟨[], 0, [], []⟩ (by decide) (by decide)
    (by decide) (by decide) (by decide) (by decide)

lemma eq_singleton_of_count {l : List Food} {f : Food}
    (hall : ∀ g ∈ l, g = f) (hcount : l.count f = 1) : l = [f] := by
  induction l with
  | nil => simp at hcount
  | cons g t ih =>
    have hg : g = f := hall g (List.mem_cons_self ..)
    subst hg
    rw [List.count_cons_self] at hcount
    have ht0 : t.count g = 0 := by omega
    cases t with
    | nil => rfl
    | cons h t' =>
      have hh : h = g := hall h (List.mem_cons_of_mem _ (List.mem_cons_self ..))
      subst hh
      rw [List.count_cons_self] at ht0
      omega

/-- C7.  When a living creature's head overlaps exactly one consumable `f`
(present exactly once) during the consumption stage, afterwards its score has
grown by exactly `f.value`, its target length by exactly `f.value / 10`, the
consumable is gone from the food collection (including after the stochastic
replenish), and no later creature processed in the same stage can consume it
again. -/
theorem C7_theorem (isP : Bool) (r : EatRand) (s : Snake) (acc : TickAcc)
    (f : Food) (t : Snake)
    (halive : s.isDead = false)
    (hcount : acc.food.count f = 1)
    (hcol : eatsB s f = true)
    (huniq : ∀ g ∈ acc.food, g ≠ f → eatsB s g = false)
    (hresp : createFood r.fr none none 10 ≠ f) :
    (eatOne isP r s acc).1.score = s.score + f.value ∧
    (eatOne isP r s acc).1.length = s.length + f.value / 10 ∧
    f ∉ (eatOne isP r s acc).2.food ∧
    f ∉ (eatFoodList (eatsB t) (eatOne isP r s acc).2.food).2 := by
  have hcons : (eatFoodList (eatsB s) acc.food).2 = [f] := by
    rw [eatFoodList_eq_filter]
    apply eq_singleton_of_count
    · intro g hg
      have hgmem : g ∈ acc.food := List.mem_of_mem_filter hg
      have hgcol : eatsB s g = true := List.of_mem_filter hg
      by_contra hne
      rw [huniq g hgmem hne] at hgcol
      cases hgcol
    · rw [List.count_filter hcol]
      exact hcount
  have hrem : f ∉ (eatFoodList (eatsB s) acc.food).1 := by
    rw [eatFoodList_eq_filter]
    intro hf
    have h := List.of_mem_filter hf
    rw [hcol] at h
    cases h
  have hv : ((eatFoodList (eatsB s) acc.food).2.map Food.value).sum = f.value := by
    rw [hcons]
    simp
  have hfood2 : f ∉ (eatOne isP r s acc).2.food := by
    unfold eatOne
    rw [if_neg (by simp [halive])]
    dsimp only
    split
    · intro hf
      rcases List.mem_append.mp hf with hf | hf
      · exact hrem hf
      · exact hresp (List.mem_singleton.mp hf).symm
    · exact hrem
  refine ⟨?_, ?_, hfood2, ?_⟩
  · unfold eatOne
    rw [if_neg (by simp [halive])]
    dsimp only
    rw [hv]
  · unfold eatOne
    rw [if_neg (by simp [halive])]
    dsimp only
    rw [hv]
  · intro hf
    rw [eatFoodList_eq_filter] at hf
    exact hfood2 (List.mem_of_mem_filter hf)

/-- C7, witness: the player consumes the single value-10 orb of `accF`,
gaining 10 score and 1 target length; the orb is gone and a second creature
cannot consume it. -/
theorem C7_witness :
    (eatOne true default playerA accF).1.score = playerA.score + foodA.value ∧
    (eatOne true default playerA accF).1.length = playerA.length + foodA.value / 10 ∧
    foodA ∉ (eatOne true default playerA accF).2.food ∧
    foodA ∉ (eatFoodList (eatsB botB1) (eatOne true default playerA accF).2.food).2 :=
  C7_theorem true default playerA accF foodA botB1 (by decide) (by decide) (by decide)
    (by decide) (by decide)

/-- C9.  Killing a creature appends to the food collection exactly one
value-20 consumable per body segment at indices 0, 3, 6, ...; for an
autonomous creature the respawn is scheduled (and the scheduled callback
constructs a replacement bot with the same id, name and color) and no
session-end event fires; for the player a single session-end event fires
carrying the currently displayed score and no respawn is scheduled. -/
theorem C9_theorem (fr : ℕ → FoodRand) (s : Snake) (acc : TickAcc) (g : Food)
    (bots : List Snake) (rx ry ang : ℚ) (skin : ℕ) :
    ((killSnakeLocal fr s acc).2.food = acc.food ++ carcass fr s ∧
     (g ∈ carcass fr s ↔ ∃ (i : ℕ) (h : i < s.body.length), i % 3 = 0 ∧
        g = createFood (fr i) (some (s.body.get ⟨i, h⟩).x)
              (some (s.body.get ⟨i, h⟩).y) 20)) ∧
    (s.isBot = true →
      (killSnakeLocal fr s acc).2.pending = acc.pending ++ [deadOf s] ∧
      (killSnakeLocal fr s acc).2.gameOvers = acc.gameOvers) ∧
    (s ∈ bots →
      ∃ s' : Snake, (respawnCallback rx ry ang skin bots s)[bots.indexOf s]? = some s' ∧
        s'.id = s.id ∧ s'.name = s.name ∧ s'.color = s.color ∧
        s'.isBot = true ∧ s'.isDead = false) ∧
    (s.isBot = false →
      (killSnakeLocal fr s acc).2.gameOvers = acc.gameOvers ++ [acc.scoreRef] ∧
      (killSnakeLocal fr s acc).2.pending = acc.pending) := by
  refine ⟨⟨killSnakeLocal_food fr s acc, ?_⟩, ?_, ?_, ?_⟩
  · unfold carcass
    rw [List.mem_filterMap]
    constructor
    · rintro ⟨⟨i, a⟩, hiamem, hia⟩
      by_cases hc : i % 3 = 0
      · rw [if_pos hc] at hia
        injection hia with hia
        have hget := List.mk_mem_enum_iff_getElem?.mp hiamem
        obtain ⟨hlt, hgeta⟩ := List.getElem?_eq_some.mp hget
        refine ⟨i, hlt, hc, ?_⟩
        rw [← hia]
        have : s.body.get ⟨i, hlt⟩ = a := hgeta
        rw [this]
      · rw [if_neg hc] at hia
        cases hia
    · rintro ⟨i, hlt, hmod, rfl⟩
      refine ⟨(i, s.body.get ⟨i, hlt⟩), ?_, ?_⟩
      · exact List.mk_mem_enum_iff_getElem?.mpr (List.getElem?_eq_getElem hlt)
      · rw [if_pos hmod]
  · intro hbot
    unfold killSnakeLocal
    rw [if_pos hbot]
    exact ⟨rfl, rfl⟩
  · intro hmem
    unfold respawnCallback
    rw [if_pos hmem]
    have hidx : bots.indexOf s < bots.length := List.indexOf_lt_length.mpr hmem
    refine ⟨createSnake s.id s.name (rx * WORLD_SIZE - WORLD_SIZE / 2)
      (ry * WORLD_SIZE - WORLD_SIZE / 2) s.color true ang skin, ?_,
      rfl, rfl, rfl, rfl, rfl⟩
    exact List.getElem?_set_self hidx
  · intro hplayer
    unfold killSnakeLocal
    rw [if_neg (by simp [hplayer])]
    exact ⟨rfl, rfl⟩

/-- C9, witness: killing the (non-bot) player over `accZ` pushes exactly one
session-end event with the displayed score 5 and schedules no respawn;
killing a bot would instead schedule the respawn, whose callback rebuilds a
bot with the same id, name and color (conjunct applied to `botB1`). -/
theorem C9_witness :
    ((killSnakeLocal frZ playerA accZ).2.gameOvers = accZ.gameOvers ++ [accZ.scoreRef] ∧
     (killSnakeLocal frZ playerA accZ).2.pending = accZ.pending) ∧
    (∃ s' : Snake, (respawnCallback 0 0 0 0 [botB1] botB1)[[botB1].indexOf botB1]?
        = some s' ∧ s'.id = botB1.id ∧ s'.name = botB1.name ∧ s'.color = botB1.color ∧
        s'.isBot = true ∧ s'.isDead = false) :=
  ⟨(C9_theorem frZ playerA accZ foodA [botB1] 0 0 0 0).2.2.2 (by decide),
   (C9_theorem frZ botB1 accZ foodA [botB1] 0 0 0 0).2.2.1 (by decide)⟩
